import Mathlib

/-
Verification of the global-entry-bot polling/notification script (main.py)
against its natural-language specification.

The script is shallowly embedded: JSON-ish values are an inductive `PyVal`,
Python dicts are association lists, the network is an `Oracle` of responses,
and a whole run of `main` is a pure function producing the list of HTTP
events, the list of composed notification messages, and an outcome
(normal termination or a raised exception).
-/

set_option autoImplicit false

namespace GlobalEntryBot

/-- A scalar JSON value as used by the script (location ids can be numbers
or strings; the lookup key `tzData` is a string). -/
inductive PyVal where
  | int (n : Int)
  | str (s : String)
  deriving DecidableEq, Repr

/-- One location-detail object from the details endpoint, as an association
list from string keys to scalar values. -/
abbrev Detail := List (String × PyVal)

/-- The dict built by `_location_details`, keyed by the value of each
detail object under key `id`. -/
abbrev PyDict := List (PyVal × Detail)

/-- First-match association-list lookup, the model of a Python dict read. -/
def assocGet {α β : Type} [DecidableEq α] (k : α) : List (α × β) → Option β
  | [] => none
  | (k2, v) :: rest => if k2 = k then some v else assocGet k rest

/-- Python dict insertion: replace in place when the key exists, else append. -/
def dictInsert (k : PyVal) (v : Detail) : PyDict → PyDict
  | [] => [(k, v)]
  | (k2, v2) :: rest => if k2 = k then (k, v) :: rest else (k2, v2) :: dictInsert k v rest

/-- Exceptions a run can raise. -/
inductive RunError where
  | connectionError
  | keyError
  | typeError
  | valueError
  | indexError
  | twitterError (msg : List (Int × String))
  deriving DecidableEq, Repr

/-- Model of the dict comprehension in `_location_details`: keep the detail
objects that contain the key `id ` (with a trailing space, as written in the
source), and key each kept object by its value under `id` (no space); a kept
object with no `id` key raises a KeyError. Insertions happen left to right. -/
def buildDetailsDict (acc : PyDict) : List Detail → Except RunError PyDict
  | [] => .ok acc
  | ld :: rest =>
    if (assocGet "id " ld).isSome then
      match assocGet "id" ld with
      | none => .error .keyError
      | some idv => buildDetailsDict (dictInsert idv ld acc) rest
    else buildDetailsDict acc rest

/-- A configured location: display name and numeric location code. -/
structure Location where
  name : String
  code : Int
  deriving DecidableEq, Repr

/-- Result of evaluating the `timezone` property: either a `ZoneInfo` built
from a string key, or the TypeError that `ZoneInfo` raises when handed the
non-string value found in the details dict. -/
inductive TzResult where
  | zone (key : String)
  | raisedTypeError
  deriving DecidableEq, Repr

/-- Model of `Location.timezone`: look up the fixed string key `tzData` in
the details dict (which is keyed by location-id values); fall back to the
string UTC when absent. A hit returns a whole detail object, and passing
that non-string to `ZoneInfo` raises a TypeError. The location itself is
never consulted. -/
def Location.timezone (details : PyDict) (_loc : Location) : TzResult :=
  match assocGet (PyVal.str "tzData") details with
  | some _ => .raisedTypeError
  | none => .zone "UTC"

/-- Split a character list at every comma, the model of the Python
`split(",")` used by `Location.parse`. -/
def splitOnComma : List Char → List (List Char)
  | [] => [[]]
  | c :: rest =>
    let r := splitOnComma rest
    if c = ',' then [] :: r
    else
      match r with
      | [] => [[c]]
      | h :: t => (c :: h) :: t

/-- Whitespace stripped by the C-level integer parser of Python `int`
(code points 9 to 13 and 32), applied after the Unicode-to-ASCII
transform pass. -/
def isPySpace (c : Char) : Bool :=
  c == ' ' || c == '\t' || c == '\n' || c == '\r' || c == '\x0b' || c == '\x0c'

/-- Base code points of the digit runs of Unicode category Nd
(Unicode 14.0, the table shipped with CPython 3.11): each base starts a
run of ten decimal digits with values 0 to 9. -/
def decimalDigitBases : List Nat :=
  [0x30, 0x660, 0x6f0, 0x7c0, 0x966, 0x9e6, 0xa66, 0xae6, 0xb66, 0xbe6,
   0xc66, 0xce6, 0xd66, 0xde6, 0xe50, 0xed0, 0xf20, 0x1040, 0x1090, 0x17e0,
   0x1810, 0x1946, 0x19d0, 0x1a80, 0x1a90, 0x1b50, 0x1bb0, 0x1c40, 0x1c50,
   0xa620, 0xa8d0, 0xa900, 0xa9d0, 0xa9f0, 0xaa50, 0xabf0, 0xff10, 0x104a0,
   0x10d30, 0x11066, 0x110f0, 0x11136, 0x111d0, 0x112f0, 0x11450, 0x114d0,
   0x11650, 0x116c0, 0x11730, 0x118e0, 0x11950, 0x11c50, 0x11d50, 0x11da0,
   0x16a60, 0x16ac0, 0x16b50, 0x1d7ce, 0x1d7d8, 0x1d7e2, 0x1d7ec, 0x1d7f6,
   0x1e140, 0x1e2f0, 0x1e950, 0x1fbf0]

/-- The decimal value of a Unicode Nd digit code point, if any. -/
def unicodeToDecimal (n : Nat) : Option Nat :=
  (decimalDigitBases.find? (fun b => decide (b ≤ n ∧ n < b + 10))).map
    (fun b => n - b)

/-- Unicode whitespace at code points 127 and above, as recognized by the
transform pass of Python `int` (the part of Py_UNICODE_ISSPACE above the
ASCII range). -/
def unicodeSpace (n : Nat) : Bool :=
  n == 0x85 || n == 0xa0 || n == 0x1680 ||
    decide (0x2000 ≤ n ∧ n ≤ 0x200a) ||
    n == 0x2028 || n == 0x2029 || n == 0x202f || n == 0x205f || n == 0x3000

/-- Model of the CPython pass on the argument of `int` before parsing:
a code point below 127 is kept, Unicode whitespace becomes a plain space,
a Unicode decimal digit becomes the ASCII digit of its value, and any
other code point becomes a question mark, which the digit parser then
rejects. -/
def transformDecimalAndSpace (c : Char) : Char :=
  if c.toNat < 127 then c
  else if unicodeSpace c.toNat then ' '
  else
    match unicodeToDecimal c.toNat with
    | some d => Char.ofNat (48 + d)
    | none => '?'

/-- Digit-run parser for Python `int`: digits with single underscores
allowed only between digits, accumulating base 10. -/
def parseDigitsAux (acc : Nat) : List Char → Option Nat
  | [] => some acc
  | '_' :: c :: rest =>
    if c.isDigit then parseDigitsAux (acc * 10 + (c.toNat - 48)) rest else none
  | c :: rest =>
    if c.isDigit then parseDigitsAux (acc * 10 + (c.toNat - 48)) rest else none

/-- Digit-run parser entry point: the run must start with a digit. -/
def parseDigits : List Char → Option Nat
  | [] => none
  | c :: rest => if c.isDigit then parseDigitsAux (c.toNat - 48) rest else none

/-- Model of Python `int(s)` on a string: first the Unicode transform pass
(decimal digits of any script to ASCII digits, Unicode whitespace to
spaces), then the C parser: strip whitespace, allow one optional sign,
then a digit run with embedded underscores; anything else is a ValueError
(`none`). Checked against CPython 3.11 on every single code point and on
randomized mixed strings. -/
def pyInt (s : String) : Option Int :=
  let ts := s.toList.map transformDecimalAndSpace
  let cs := ((ts.dropWhile isPySpace).reverse.dropWhile isPySpace).reverse
  match cs with
  | '+' :: rest => (parseDigits rest).map Int.ofNat
  | '-' :: rest => (parseDigits rest).map (fun n => -(n : Int))
  | rest => (parseDigits rest).map Int.ofNat

/-- Model of `Location.parse`: split the argument on commas, require exactly
two parts, and convert the second with `int`; a wrong part count or a bad
integer raises a ValueError. -/
def Location.parse (s : String) : Except RunError Location :=
  match (splitOnComma s.toList).map (fun cs => String.mk cs) with
  | [name, code] =>
    match pyInt code with
    | some k => .ok ⟨name, k⟩
    | none => .error .valueError
  | _ => .error .valueError

/-- A naive datetime as produced by `strptime` with format %Y-%m-%dT%H:%M:
year, month, day, hour, minute. -/
structure DateTime where
  year : Nat
  month : Nat
  day : Nat
  hour : Nat
  minute : Nat
  deriving DecidableEq, Repr

/-- Days since 1970-01-01 of a civil date (proleptic Gregorian), for
year at least 1 as guaranteed by Python datetimes. -/
def daysFromCivil (y m d : Nat) : Int :=
  let yAdj : Nat := if m ≤ 2 then y - 1 else y
  let era : Nat := yAdj / 400
  let yoe : Nat := yAdj - era * 400
  let mp : Nat := (m + 9) % 12
  let doy : Nat := (153 * mp + 2) / 5 + d - 1
  let doe : Nat := yoe * 365 + yoe / 4 - yoe / 100 + doy
  (era * 146097 + doe : Int) - 719468

/-- Weekday index of a civil date, with 0 = Sunday (1970-01-01 is a
Thursday, index 4). -/
def weekdayIndex (y m d : Nat) : Nat :=
  ((daysFromCivil y m d + 4) % 7).toNat

/-- Full weekday name, the %A directive. -/
def weekdayName : Nat → String
  | 0 => "Sunday"
  | 1 => "Monday"
  | 2 => "Tuesday"
  | 3 => "Wednesday"
  | 4 => "Thursday"
  | 5 => "Friday"
  | 6 => "Saturday"
  | _ => ""

/-- Full month name, the %B directive. -/
def monthName : Nat → String
  | 1 => "January"
  | 2 => "February"
  | 3 => "March"
  | 4 => "April"
  | 5 => "May"
  | 6 => "June"
  | 7 => "July"
  | 8 => "August"
  | 9 => "September"
  | 10 => "October"
  | 11 => "November"
  | 12 => "December"
  | _ => ""

/-- Zero-pad a number to two digits, as %d, %I and %M do. -/
def pad2 (n : Nat) : String :=
  if n < 10 then "0" ++ toString n else toString n

/-- Hour on the 12-hour clock, the %I directive: 0 maps to 12. -/
def hour12 (h : Nat) : Nat :=
  if h % 12 = 0 then 12 else h % 12

/-- AM/PM marker, the %p directive. -/
def amPm (h : Nat) : String :=
  if h < 12 then "AM" else "PM"

/-- Model of `strftime` with MESSAGE_TIME_FORMAT, that is
%A, %B %d, %Y at %I:%M %p. -/
def strftimeMessage (t : DateTime) : String :=
  weekdayName (weekdayIndex t.year t.month t.day) ++ ", " ++
    monthName t.month ++ " " ++ pad2 t.day ++ ", " ++ toString t.year ++
    " at " ++ pad2 (hour12 t.hour) ++ ":" ++ pad2 t.minute ++ " " ++ amPm t.hour

/-- An appointment: a location plus the slot time parsed from the
scheduler response. -/
structure Appointment where
  location : Location
  time : DateTime
  deriving DecidableEq, Repr

/-- Model of `Appointment.human_readable_time`. -/
def Appointment.human_readable_time (a : Appointment) : String :=
  strftimeMessage a.time

/-- Model of `AppointmentTweeter._compose_message`: NOTIF_MESSAGE, that is
the template New appointment slot open at {location}: {date}, with
{location} the location name and {date} the human-readable time. -/
def compose_message (a : Appointment) : String :=
  "New appointment slot open at " ++ a.location.name ++ ": " ++
    a.human_readable_time

/-- One slot object from the scheduler API: the optional `active` count and
the parsed `timestamp` field. -/
structure SlotRecord where
  active : Option Int
  timestamp : DateTime
  deriving DecidableEq, Repr

/-- The availability filter of `get_appointments`: keep the results whose
`active` value, defaulting to 0 when the field is missing, is positive. -/
def activeSlots (results : List SlotRecord) : List SlotRecord :=
  results.filter (fun r => 0 < r.active.getD 0)

/-- The appointments yielded by `get_appointments` for one location: one per
active slot, in response order. -/
def slotsToAppointments (loc : Location) (results : List SlotRecord) : List Appointment :=
  (activeSlots results).map (fun r => ⟨loc, r.timestamp⟩)

/-- One HTTP request performed by a run: the GET to the location-details
endpoint, a GET to the scheduler slots endpoint of a location code, or the
POST of a status update. -/
inductive HttpEvent where
  | getLocationDetails
  | getSlots (code : Int)
  | postStatus (message : String)
  deriving DecidableEq, Repr

/-- Whether an HTTP event is a GET. -/
def HttpEvent.isGet : HttpEvent → Bool
  | .postStatus _ => false
  | _ => true

/-- Whether an HTTP event is a POST. -/
def HttpEvent.isPost : HttpEvent → Bool
  | .postStatus _ => true
  | _ => false

/-- Outcome of `PostUpdate`: success, or a TwitterError carrying a list of
entries, each an error code with an error message. -/
inductive PostResult where
  | ok
  | twitterError (msg : List (Int × String))
  deriving DecidableEq, Repr

/-- Outcome of one `AppointmentTweeter._tweet` call. -/
inductive TweetOutcome where
  | continued
  | raisedTwitter (msg : List (Int × String))
  | raisedIndexError
  deriving DecidableEq, Repr

/-- Model of the exception handling in `AppointmentTweeter._tweet`: a
TwitterError whose message is a one-entry list with code 187 is swallowed;
otherwise the handler formats a log line from the first entry of the
message and re-raises, so an empty message list raises an IndexError from
the log-formatting expression instead. -/
def pyTweet (res : PostResult) : TweetOutcome :=
  match res with
  | .ok => .continued
  | .twitterError msg =>
    if msg.length = 1 ∧ (msg.headD (0, "")).1 = 187 then .continued
    else
      match msg with
      | [] => .raisedIndexError
      | _ :: _ => .raisedTwitter msg

/-- The remote world a run talks to: the details-endpoint response, the
per-code scheduler responses, the per-message POST outcomes, and whether
each GET raises a ConnectionError. -/
structure Oracle where
  detailsConnErr : Bool
  detailsResp : List Detail
  slotsConnErr : Int → Bool
  slotsResp : Int → List SlotRecord
  postResp : String → PostResult

/-- Everything observable about one run of `main`: the HTTP events in
order, the notification messages composed and logged in order, and whether
the run finished or raised. -/
structure RunOut where
  trace : List HttpEvent
  messages : List String
  outcome : Except RunError Unit
  deriving Repr

/-- Model of the cached `_location_details` call: one GET to the details
endpoint, then the dict comprehension over the response. -/
def fetch_location_details (o : Oracle) : List HttpEvent × Except RunError PyDict :=
  if o.detailsConnErr then ([.getLocationDetails], .error .connectionError)
  else ([.getLocationDetails], buildDetailsDict [] o.detailsResp)

/-- Model of one `tweeter.tweet(appointment)` call given the already
composed message: always logged; in test mode nothing else happens, and
otherwise the message is POSTed and the `_tweet` handler applied. -/
def run_tweet (o : Oracle) (testMode : Bool) (msg : String) :
    List HttpEvent × Except RunError Unit :=
  if testMode then ([], .ok ())
  else
    ([.postStatus msg],
      match pyTweet (o.postResp msg) with
      | .continued => .ok ()
      | .raisedTwitter m => .error (.twitterError m)
      | .raisedIndexError => .error .indexError)

/-- Model of the `for appointment in appointments: tweeter.tweet(...)` loop
over the appointments of one location: compose and log each message in
order, stopping at the first raised exception. -/
def run_tweets (o : Oracle) (testMode : Bool) : List Appointment →
    List HttpEvent × List String × Except RunError Unit
  | [] => ([], [], .ok ())
  | a :: rest =>
    let msg := compose_message a
    let (ev, res) := run_tweet o testMode msg
    match res with
    | .error e => (ev, [msg], .error e)
    | .ok _ =>
      let (ev2, msgs, res2) := run_tweets o testMode rest
      (ev ++ ev2, msg :: msgs, res2)

/-- Model of pulling one `get_appointments(location)` generator to its
first yield: evaluating `location.timezone` forces the cached
`_location_details` fetch, then one GET to the scheduler endpoint for the
location code, then the availability filter. -/
def run_get_appointments (o : Oracle) (cache : Option PyDict) (loc : Location) :
    List HttpEvent × Option PyDict × Except RunError (List Appointment) :=
  let step : List HttpEvent × Option PyDict × Except RunError PyDict :=
    match cache with
    | some d => ([], some d, .ok d)
    | none =>
      match fetch_location_details o with
      | (ev, .ok d) => (ev, some d, .ok d)
      | (ev, .error e) => (ev, none, .error e)
  match step with
  | (ev1, cache2, .error e) => (ev1, cache2, .error e)
  | (ev1, cache2, .ok d) =>
    match Location.timezone d loc with
    | .raisedTypeError => (ev1, cache2, .error .typeError)
    | .zone _ =>
      if o.slotsConnErr loc.code then
        (ev1 ++ [.getSlots loc.code], cache2, .error .connectionError)
      else
        (ev1 ++ [.getSlots loc.code], cache2,
          .ok (slotsToAppointments loc (o.slotsResp loc.code)))

/-- Model of the main loop over the chained lazy generators: each location
is pulled only after every appointment of the previous locations has been
tweeted, and the details dict is fetched once and cached across locations. -/
def run_locations (o : Oracle) (testMode : Bool) (cache : Option PyDict) :
    List Location → List HttpEvent × List String × Except RunError Unit
  | [] => ([], [], .ok ())
  | loc :: rest =>
    let (ev1, cache2, res) := run_get_appointments o cache loc
    match res with
    | .error e => (ev1, [], .error e)
    | .ok apps =>
      let (ev2, msgs2, res2) := run_tweets o testMode apps
      match res2 with
      | .error e => (ev1 ++ ev2, msgs2, .error e)
      | .ok _ =>
        let (ev3, msgs3, res3) := run_locations o testMode cache2 rest
        (ev1 ++ ev2 ++ ev3, msgs2 ++ msgs3, res3)

/-- Model of one whole run of `main` after argument parsing: the locations
in command-line order, with an initially empty `_location_details` cache. -/
def run_main (o : Oracle) (testMode : Bool) (locations : List Location) : RunOut :=
  let (ev, msgs, res) := run_locations o testMode none locations
  ⟨ev, msgs, res⟩

/-- Concatenation of the lists produced by `f` over `l`, in order; the shape
of the chained generators in `main`. -/
def flatMapL {α β : Type} (f : α → List β) : List α → List β
  | [] => []
  | a :: rest => f a ++ flatMapL f rest

/-- The appointments one location contributes to a run. -/
def perLocApps (o : Oracle) (loc : Location) : List Appointment :=
  slotsToAppointments loc (o.slotsResp loc.code)

/-- The notification messages one location contributes to a run, in
response order. -/
def perLocMsgs (o : Oracle) (loc : Location) : List String :=
  (perLocApps o loc).map compose_message

/-- The HTTP events one location contributes to a successful run after the
details dict is cached: its scheduler GET, then its POSTs when not in test
mode. -/
def perLocEvents (o : Oracle) (testMode : Bool) (loc : Location) : List HttpEvent :=
  .getSlots loc.code ::
    (if testMode then [] else (perLocMsgs o loc).map HttpEvent.postStatus)

/-- A sample location, as parsed from the argument SFO,5446. -/
def sfo : Location := ⟨"SFO", 5446⟩

/-- A sample slot time. -/
def dt1 : DateTime := ⟨2026, 10, 12, 13, 30⟩

/-- A sample scheduler slot with three open appointments. -/
def slot1 : SlotRecord := ⟨some 3, dt1⟩

/-- The notification message of the sample slot at the sample location. -/
def msg1 : String := compose_message ⟨sfo, dt1⟩

/-- A well-behaved remote world: details endpoint returns an empty list,
every scheduler GET returns the sample slot, every POST succeeds. -/
def oGood : Oracle := ⟨false, [], fun _ => false, fun _ => [slot1], fun _ => .ok⟩

/-- A remote world whose details endpoint refuses connections. -/
def oDetailsErr : Oracle := ⟨true, [], fun _ => false, fun _ => [slot1], fun _ => .ok⟩

/-- A remote world whose scheduler endpoint refuses connections. -/
def oSlotsErr : Oracle := ⟨false, [], fun _ => true, fun _ => [slot1], fun _ => .ok⟩

lemma mem_flatMapL {α β : Type} (f : α → List β) (l : List α) (b : β) :
    b ∈ flatMapL f l ↔ ∃ a ∈ l, b ∈ f a := by
  induction l with
  | nil => simp [flatMapL]
  | cons x xs ih => simp [flatMapL, ih]

lemma count_flatMapL {α β : Type} [BEq β] (f : α → List β) (l : List α) (b : β) :
    (flatMapL f l).count b = (l.map (fun a => (f a).count b)).sum := by
  induction l with
  | nil => simp [flatMapL]
  | cons x xs ih => simp [flatMapL, List.count_append, ih]

lemma map_flatMapL {α β γ : Type} (f : α → List β) (g : β → γ) (l : List α) :
    (flatMapL f l).map g = flatMapL (fun a => (f a).map g) l := by
  induction l <;> simp_all [flatMapL]

lemma filter_flatMapL {α β : Type} (f : α → List β) (p : β → Bool) (l : List α) :
    (flatMapL f l).filter p = flatMapL (fun a => (f a).filter p) l := by
  induction l <;> simp_all [flatMapL]

lemma run_tweets_ok (o : Oracle) (tm : Bool) (apps : List Appointment)
    (hp : ∀ m, pyTweet (o.postResp m) = .continued) :
    run_tweets o tm apps =
      ((if tm then [] else (apps.map compose_message).map HttpEvent.postStatus),
        apps.map compose_message, Except.ok ()) := by
  induction apps with
  | nil => cases tm <;> rfl
  | cons a rest ih =>
    cases tm
    · simp [run_tweets, run_tweet, hp, ih]
    · simp [run_tweets, run_tweet, ih]

lemma run_get_appointments_cached (o : Oracle) (d : PyDict) (loc : Location)
    (htz : assocGet (PyVal.str "tzData") d = none)
    (hs : o.slotsConnErr loc.code = false) :
    run_get_appointments o (some d) loc =
      ([.getSlots loc.code], some d, .ok (perLocApps o loc)) := by
  simp [run_get_appointments, Location.timezone, htz, hs, perLocApps]

lemma run_get_appointments_details_err (o : Oracle) (loc : Location)
    (hc : o.detailsConnErr = true) :
    run_get_appointments o none loc =
      ([.getLocationDetails], none, .error .connectionError) := by
  simp [run_get_appointments, fetch_location_details, hc]

lemma run_get_appointments_first (o : Oracle) (d : PyDict) (loc : Location)
    (hd : o.detailsConnErr = false)
    (hb : buildDetailsDict [] o.detailsResp = .ok d)
    (htz : assocGet (PyVal.str "tzData") d = none)
    (hs : o.slotsConnErr loc.code = false) :
    run_get_appointments o none loc =
      ([.getLocationDetails, .getSlots loc.code], some d, .ok (perLocApps o loc)) := by
  simp [run_get_appointments, fetch_location_details, hd, hb, Location.timezone,
    htz, hs, perLocApps]

lemma run_get_appointments_first_slots_err (o : Oracle) (d : PyDict) (loc : Location)
    (hd : o.detailsConnErr = false)
    (hb : buildDetailsDict [] o.detailsResp = .ok d)
    (htz : assocGet (PyVal.str "tzData") d = none)
    (hs : o.slotsConnErr loc.code = true) :
    run_get_appointments o none loc =
      ([.getLocationDetails, .getSlots loc.code], some d, .error .connectionError) := by
  simp [run_get_appointments, fetch_location_details, hd, hb, Location.timezone, htz, hs]

lemma run_locations_cached_ok (o : Oracle) (tm : Bool) (d : PyDict) (locs : List Location)
    (htz : assocGet (PyVal.str "tzData") d = none)
    (hs : ∀ loc ∈ locs, o.slotsConnErr loc.code = false)
    (hp : ∀ m, pyTweet (o.postResp m) = .continued) :
    run_locations o tm (some d) locs =
      (flatMapL (perLocEvents o tm) locs, flatMapL (perLocMsgs o) locs, Except.ok ()) := by
  induction locs with
  | nil => rfl
  | cons loc rest ih =>
    have h1 := run_get_appointments_cached o d loc htz (hs loc (by simp))
    have h2 := run_tweets_ok o tm (perLocApps o loc) hp
    have ih2 := ih (fun l hl => hs l (by simp [hl]))
    simp [run_locations, h1, h2, ih2, flatMapL, perLocEvents, perLocMsgs]

lemma run_main_decomp (o : Oracle) (tm : Bool) (locs : List Location) (d : PyDict)
    (hd : o.detailsConnErr = false)
    (hb : buildDetailsDict [] o.detailsResp = .ok d)
    (htz : assocGet (PyVal.str "tzData") d = none)
    (hs : ∀ loc ∈ locs, o.slotsConnErr loc.code = false)
    (hp : ∀ m, pyTweet (o.postResp m) = .continued) :
    run_main o tm locs =
      ⟨(if locs.isEmpty then [] else [.getLocationDetails]) ++
          flatMapL (perLocEvents o tm) locs,
        flatMapL (perLocMsgs o) locs, Except.ok ()⟩ := by
  cases locs with
  | nil => rfl
  | cons loc rest =>
    have h1 := run_get_appointments_first o d loc hd hb htz (hs loc (by simp))
    have h2 := run_tweets_ok o tm (perLocApps o loc) hp
    have h3 := run_locations_cached_ok o tm d rest htz (fun l hl => hs l (by simp [hl])) hp
    simp [run_main, run_locations, h1, h2, h3, flatMapL, perLocEvents, perLocMsgs]

lemma run_get_appointments_no_post (o : Oracle) (cache : Option PyDict) (loc : Location) :
    ((run_get_appointments o cache loc).1).filter HttpEvent.isPost = [] := by
  rcases cache with _ | d
  · rcases hc : o.detailsConnErr with _ | _
    · rcases hb : buildDetailsDict [] o.detailsResp with e | d2
      · simp [run_get_appointments, fetch_location_details, hc, hb, HttpEvent.isPost]
      · rcases htz : assocGet (PyVal.str "tzData") d2 with _ | v
        · rcases hs : o.slotsConnErr loc.code with _ | _ <;>
            simp [run_get_appointments, fetch_location_details, hc, hb,
              Location.timezone, htz, hs, HttpEvent.isPost]
        · simp [run_get_appointments, fetch_location_details, hc, hb,
            Location.timezone, htz, HttpEvent.isPost]
    · simp [run_get_appointments, fetch_location_details, hc, HttpEvent.isPost]
  · rcases htz : assocGet (PyVal.str "tzData") d with _ | v
    · rcases hs : o.slotsConnErr loc.code with _ | _ <;>
        simp [run_get_appointments, Location.timezone, htz, hs, HttpEvent.isPost]
    · simp [run_get_appointments, Location.timezone, htz, HttpEvent.isPost]

lemma run_tweets_posts (o : Oracle) (tm : Bool) (apps : List Appointment) :
    ((run_tweets o tm apps).1).filter HttpEvent.isPost =
      if tm then [] else ((run_tweets o tm apps).2.1).map HttpEvent.postStatus := by
  induction apps with
  | nil => cases tm <;> rfl
  | cons a rest ih =>
    cases tm
    · rcases hr : pyTweet (o.postResp (compose_message a)) with _ | m | _
      · rcases ht : run_tweets o false rest with ⟨ev2, msgs2, res2⟩
        rw [ht] at ih
        simp only [if_neg Bool.false_ne_true] at ih ⊢
        simp [run_tweets, run_tweet, hr, ht, HttpEvent.isPost, ih]
      · simp [run_tweets, run_tweet, hr, HttpEvent.isPost]
      · simp [run_tweets, run_tweet, hr, HttpEvent.isPost]
    · simp [run_tweets, run_tweet]
      simpa using ih

lemma run_locations_posts (o : Oracle) (tm : Bool) (cache : Option PyDict)
    (locs : List Location) :
    ((run_locations o tm cache locs).1).filter HttpEvent.isPost =
      if tm then []
      else ((run_locations o tm cache locs).2.1).map HttpEvent.postStatus := by
  induction locs generalizing cache with
  | nil => cases tm <;> rfl
  | cons loc rest ih =>
    rcases hga : run_get_appointments o cache loc with ⟨ev1, cache2, res⟩
    have hev1 : ev1.filter HttpEvent.isPost = [] := by
      have h := run_get_appointments_no_post o cache loc
      rw [hga] at h; exact h
    rcases res with e | apps
    · cases tm <;> simp [run_locations, hga, hev1, List.filter_append]
    · rcases ht : run_tweets o tm apps with ⟨ev2, msgs2, res2⟩
      have hev2 := run_tweets_posts o tm apps
      rw [ht] at hev2
      rcases res2 with e2 | u
      · cases tm <;> simp_all [run_locations, List.filter_append]
      · rcases hrest : run_locations o tm cache2 rest with ⟨ev3, msgs3, res3⟩
        have ih2 := ih cache2
        rw [hrest] at ih2
        cases tm <;> simp_all [run_locations, List.filter_append]

lemma splitOnComma_ne_nil (cs : List Char) : splitOnComma cs ≠ [] := by
  cases cs with
  | nil => simp [splitOnComma]
  | cons c rest =>
    simp only [splitOnComma]
    split
    · simp
    · split <;> simp

lemma splitOnComma_no_comma (cs : List Char) (h : ',' ∉ cs) : splitOnComma cs = [cs] := by
  induction cs with
  | nil => rfl
  | cons c rest ih =>
    have hc : ¬ c = ',' := fun e => h (by simp [e])
    have hr : ',' ∉ rest := fun hm => h (by simp [hm])
    simp [splitOnComma, hc, ih hr]

lemma splitOnComma_append (a b : List Char) (ha : ',' ∉ a) :
    splitOnComma (a ++ ',' :: b) = a :: splitOnComma b := by
  induction a with
  | nil => simp [splitOnComma]
  | cons c a2 ih =>
    have hc : ¬ c = ',' := fun e => ha (by simp [e])
    have ha2 : ',' ∉ a2 := fun hm => ha (by simp [hm])
    simp [splitOnComma, hc, ih ha2]

lemma splitOnComma_length (cs : List Char) :
    (splitOnComma cs).length = cs.count ',' + 1 := by
  induction cs with
  | nil => rfl
  | cons c rest ih =>
    by_cases hc : c = ','
    · subst hc; simp [splitOnComma, List.count_cons, ih]
    · have hne := splitOnComma_ne_nil rest
      rcases hr : splitOnComma rest with _ | ⟨h0, t0⟩
      · exact absurd hr hne
      · rw [hr] at ih
        simp only [List.length_cons] at ih
        simp [splitOnComma, hc, hr, List.count_cons]
        omega

lemma run_main_eq (o : Oracle) (tm : Bool) (locs : List Location) :
    run_main o tm locs =
      ⟨(run_locations o tm none locs).1, (run_locations o tm none locs).2.1,
        (run_locations o tm none locs).2.2⟩ := by
  rcases hr : run_locations o tm none locs with ⟨ev, msgs, res⟩
  simp [run_main, hr]

lemma postMap_filter_isGet (ms : List String) :
    (ms.map HttpEvent.postStatus).filter HttpEvent.isGet = [] := by
  induction ms <;> simp_all [HttpEvent.isGet]

lemma postMap_filter_notGet (ms : List String) :
    (ms.map HttpEvent.postStatus).filter (fun e => ! HttpEvent.isGet e) =
      ms.map HttpEvent.postStatus := by
  induction ms <;> simp_all [HttpEvent.isGet]

lemma flat_events_filter_isGet (o : Oracle) (tm : Bool) (locs : List Location) :
    (flatMapL (perLocEvents o tm) locs).filter HttpEvent.isGet =
      locs.map (fun l => HttpEvent.getSlots l.code) := by
  induction locs with
  | nil => rfl
  | cons l ls ih =>
    cases tm <;>
      simp [flatMapL, List.filter_append, perLocEvents, HttpEvent.isGet,
        postMap_filter_isGet, ih]

lemma flat_events_filter_notGet (o : Oracle) (tm : Bool) (locs : List Location) :
    (flatMapL (perLocEvents o tm) locs).filter (fun e => ! HttpEvent.isGet e) =
      if tm then [] else (flatMapL (perLocMsgs o) locs).map HttpEvent.postStatus := by
  induction locs with
  | nil => cases tm <;> rfl
  | cons l ls ih =>
    cases tm <;>
      simp_all [flatMapL, List.filter_append, perLocEvents, HttpEvent.isGet,
        postMap_filter_notGet, List.map_append]

lemma flatMapL_congr {α β : Type} (f g : α → List β) (l : List α)
    (h : ∀ a ∈ l, f a = g a) : flatMapL f l = flatMapL g l := by
  induction l <;> simp_all [flatMapL]

/-- Claim C1, counterexample: with the same location listed twice on the
command line, the single available slot of that location is dispatched
twice in one run (two log lines and two POSTs of the same message), so it
is not dispatched exactly once and no in-run deduplication exists. -/
theorem claim_C1_counterexample :
    ((run_main oGood false [sfo, sfo]).messages).count msg1 = 2 ∧
    ((run_main oGood false [sfo, sfo]).trace.filter HttpEvent.isPost).length = 2 := by
  decide

/-- Claim C1, amended: each available slot is dispatched once per
occurrence of its location in the configured list, with no in-run
deduplication: the number of times a message is dispatched is the sum,
over the location-list entries in order, of the occurrences of that
message among the entry's composed slot messages. -/
theorem claim_C1_amended (o : Oracle) (tm : Bool) (locs : List Location) (d : PyDict)
    (hd : o.detailsConnErr = false)
    (hb : buildDetailsDict [] o.detailsResp = .ok d)
    (htz : assocGet (PyVal.str "tzData") d = none)
    (hs : ∀ loc ∈ locs, o.slotsConnErr loc.code = false)
    (hp : ∀ m, pyTweet (o.postResp m) = .continued)
    (m : String) :
    ((run_main o tm locs).messages).count m =
      (locs.map (fun loc => (perLocMsgs o loc).count m)).sum := by
  rw [run_main_decomp o tm locs d hd hb htz hs hp]
  exact count_flatMapL (perLocMsgs o) locs m

/-- Claim C1, witness of the amended theorem at the sample run. -/
theorem claim_C1_witness :
    ((run_main oGood false [sfo, sfo]).messages).count msg1 =
      ([sfo, sfo].map (fun loc => (perLocMsgs oGood loc).count msg1)).sum :=
  claim_C1_amended oGood false [sfo, sfo] [] rfl rfl rfl (fun _ _ => rfl)
    (fun _ => rfl) msg1

/-- Claim C2, counterexample: a TwitterError whose message is the empty
list is neither suppressed nor logged and re-raised: the handler raises an
IndexError while formatting the log line from the first message entry. -/
theorem claim_C2_counterexample :
    pyTweet (PostResult.twitterError []) = TweetOutcome.raisedIndexError ∧
    pyTweet (PostResult.twitterError []) ≠ TweetOutcome.raisedTwitter [] := by
  decide

/-- Claim C2, amended: a TwitterError whose message is a single-element
list with error code 187 is suppressed and execution continues; any other
TwitterError with a non-empty message list is logged and re-raised; a
TwitterError with an empty message list raises an IndexError from the
log-formatting expression instead. -/
theorem claim_C2_amended :
    (∀ c : Int, ∀ m : String,
      pyTweet (.twitterError [(c, m)]) =
        if c = 187 then .continued else .raisedTwitter [(c, m)]) ∧
    (∀ e1 e2 : Int × String, ∀ rest : List (Int × String),
      pyTweet (.twitterError (e1 :: e2 :: rest)) =
        .raisedTwitter (e1 :: e2 :: rest)) ∧
    pyTweet (.twitterError []) = .raisedIndexError ∧
    pyTweet .ok = .continued := by
  refine ⟨fun c m => ?_, fun e1 e2 rest => ?_, rfl, rfl⟩
  · by_cases hc : c = 187 <;> simp [pyTweet, hc]
  · have hlen : ¬ (e1 :: e2 :: rest).length = 1 := by simp
    simp [pyTweet, hlen]

/-- Claim C3: a slot record from the scheduler response passes the
availability filter, and so yields an appointment, exactly when its active
field is present and positive; a record without the field counts as 0 and
is excluded. -/
theorem claim_C3 (results : List SlotRecord) (r : SlotRecord) :
    r ∈ activeSlots results ↔
      r ∈ results ∧ ∃ a : Int, r.active = some a ∧ 0 < a := by
  simp only [activeSlots, List.mem_filter, decide_eq_true_eq]
  constructor
  · rintro ⟨hm, hp⟩
    rcases ha : r.active with _ | a
    · rw [ha] at hp; simp at hp
    · rw [ha] at hp; exact ⟨hm, a, rfl, by simpa using hp⟩
  · rintro ⟨hm, a, ha, hpos⟩
    exact ⟨hm, by simp [ha, hpos]⟩

/-- Claim C4, counterexample: a run over one location with a healthy
network performs two GET requests, not one: the location-details GET plus
the scheduler GET. -/
theorem claim_C4_counterexample :
    (run_main oGood true [sfo]).trace =
      [HttpEvent.getLocationDetails, HttpEvent.getSlots 5446] ∧
    ((run_main oGood true [sfo]).trace.filter HttpEvent.isGet).length ≠ 1 := by
  decide

/-- Claim C4, amended: a successful run over N locations performs N+1 GETs
(one GET to the location-details endpoint, cached across locations, then
exactly one scheduler GET per location in order) and no other HTTP
requests besides the conditional notification POSTs. -/
theorem claim_C4_amended (o : Oracle) (tm : Bool) (loc : Location)
    (rest : List Location) (d : PyDict)
    (hd : o.detailsConnErr = false)
    (hb : buildDetailsDict [] o.detailsResp = .ok d)
    (htz : assocGet (PyVal.str "tzData") d = none)
    (hs : ∀ l ∈ loc :: rest, o.slotsConnErr l.code = false)
    (hp : ∀ m, pyTweet (o.postResp m) = .continued) :
    ((run_main o tm (loc :: rest)).trace.filter HttpEvent.isGet =
      HttpEvent.getLocationDetails ::
        (loc :: rest).map (fun l => HttpEvent.getSlots l.code)) ∧
    ((run_main o tm (loc :: rest)).trace.filter (fun e => ! HttpEvent.isGet e) =
      if tm then []
      else ((run_main o tm (loc :: rest)).messages).map HttpEvent.postStatus) := by
  rw [run_main_decomp o tm (loc :: rest) d hd hb htz hs hp]
  constructor
  · simp [List.filter_append, flat_events_filter_isGet, HttpEvent.isGet]
  · simp only [List.filter_append]
    rw [flat_events_filter_notGet]
    cases tm <;> simp [HttpEvent.isGet]

/-- Claim C4, witness of the amended theorem at the sample run. -/
theorem claim_C4_witness :
    (run_main oGood false [sfo]).trace.filter HttpEvent.isGet =
      HttpEvent.getLocationDetails ::
        [sfo].map (fun l => HttpEvent.getSlots l.code) :=
  (claim_C4_amended oGood false sfo [] [] rfl rfl rfl (fun _ _ => rfl)
    (fun _ => rfl)).1

/-- Claim C5: every notification message is composed and logged, and a POST
of the status occurs exactly when test mode is off: with the test flag no
POST event ever appears in the trace, and without it the POSTs are exactly
the composed messages, in order. -/
theorem claim_C5 (o : Oracle) (locs : List Location) :
    ((run_main o true locs).trace.filter HttpEvent.isPost = []) ∧
    ((run_main o false locs).trace.filter HttpEvent.isPost =
      ((run_main o false locs).messages).map HttpEvent.postStatus) := by
  constructor
  · rw [run_main_eq]
    have h := run_locations_posts o true none locs
    simpa using h
  · rw [run_main_eq]
    have h := run_locations_posts o false none locs
    simpa using h

/-- Claim C6: every message dispatched by a successful run is the template
New appointment slot open at {location}: {date}, with {location} the name
of one of the configured locations and {date} the appointment time
formatted as %A, %B %d, %Y at %I:%M %p. -/
theorem claim_C6 (o : Oracle) (tm : Bool) (locs : List Location) (d : PyDict)
    (hd : o.detailsConnErr = false)
    (hb : buildDetailsDict [] o.detailsResp = .ok d)
    (htz : assocGet (PyVal.str "tzData") d = none)
    (hs : ∀ loc ∈ locs, o.slotsConnErr loc.code = false)
    (hp : ∀ m, pyTweet (o.postResp m) = .continued)
    (m : String) (hm : m ∈ (run_main o tm locs).messages) :
    ∃ a : Appointment, a.location ∈ locs ∧
      m = "New appointment slot open at " ++ a.location.name ++ ": " ++
        strftimeMessage a.time := by
  rw [run_main_decomp o tm locs d hd hb htz hs hp] at hm
  have hm2 : m ∈ flatMapL (perLocMsgs o) locs := hm
  rw [mem_flatMapL] at hm2
  obtain ⟨loc, hloc, hmm⟩ := hm2
  simp only [perLocMsgs, List.mem_map] at hmm
  obtain ⟨app, happ, heq⟩ := hmm
  have happ2 : ∃ r, r ∈ activeSlots (o.slotsResp loc.code) ∧
      Appointment.mk loc r.timestamp = app := by
    simpa [perLocApps, slotsToAppointments, List.mem_map] using happ
  obtain ⟨r, _hr, happ3⟩ := happ2
  subst happ3
  refine ⟨⟨loc, r.timestamp⟩, by simpa using hloc, ?_⟩
  rw [← heq]
  rfl

/-- Claim C6, witness at the sample run. -/
theorem claim_C6_witness :
    ∃ a : Appointment, a.location ∈ [sfo] ∧
      msg1 = "New appointment slot open at " ++ a.location.name ++ ": " ++
        strftimeMessage a.time :=
  claim_C6 oGood true [sfo] [] rfl rfl rfl (fun _ _ => rfl) (fun _ => rfl)
    msg1 (by decide)

/-- Claim C7: a ConnectionError on the location-details GET, or on a
scheduler GET, propagates out of the run (it is logged and re-raised), the
failing request is attempted exactly once, and no request of any kind
follows it: there is no retry and no backoff. -/
theorem claim_C7 (o : Oracle) (tm : Bool) (loc : Location) (rest : List Location) :
    (o.detailsConnErr = true →
      run_main o tm (loc :: rest) =
        ⟨[HttpEvent.getLocationDetails], [], Except.error RunError.connectionError⟩) ∧
    (∀ d : PyDict, o.detailsConnErr = false →
      buildDetailsDict [] o.detailsResp = Except.ok d →
      assocGet (PyVal.str "tzData") d = none →
      o.slotsConnErr loc.code = true →
      run_main o tm (loc :: rest) =
        ⟨[HttpEvent.getLocationDetails, HttpEvent.getSlots loc.code], [],
          Except.error RunError.connectionError⟩) := by
  constructor
  · intro hc
    have h := run_get_appointments_details_err o loc hc
    simp [run_main, run_locations, h]
  · intro d hd hb htz hs
    have h := run_get_appointments_first_slots_err o d loc hd hb htz hs
    simp [run_main, run_locations, h]

/-- Claim C7, witness: one concrete run whose details GET refuses the
connection stops after that single GET with the error propagated. -/
theorem claim_C7_witness :
    run_main oDetailsErr true [sfo] =
      ⟨[HttpEvent.getLocationDetails], [], Except.error RunError.connectionError⟩ :=
  (claim_C7 oDetailsErr true sfo []).1 rfl

/-- Claim C8: dispatch order is strictly linear: the messages of a
successful run are the concatenation, over the locations in command-line
order, of the composed messages of each location's active slots in
response order; and the trace fetches a location's slots only after all
previous locations' notifications were sent. -/
theorem claim_C8 (o : Oracle) (tm : Bool) (locs : List Location) (d : PyDict)
    (hd : o.detailsConnErr = false)
    (hb : buildDetailsDict [] o.detailsResp = .ok d)
    (htz : assocGet (PyVal.str "tzData") d = none)
    (hs : ∀ loc ∈ locs, o.slotsConnErr loc.code = false)
    (hp : ∀ m, pyTweet (o.postResp m) = .continued) :
    (run_main o tm locs).messages =
      flatMapL (fun loc =>
        (activeSlots (o.slotsResp loc.code)).map
          (fun r => compose_message ⟨loc, r.timestamp⟩)) locs ∧
    (run_main o tm locs).trace =
      (if locs.isEmpty then [] else [HttpEvent.getLocationDetails]) ++
        flatMapL (perLocEvents o tm) locs := by
  rw [run_main_decomp o tm locs d hd hb htz hs hp]
  refine ⟨?_, rfl⟩
  show flatMapL (perLocMsgs o) locs = _
  apply flatMapL_congr
  intro loc _
  simp [perLocMsgs, perLocApps, slotsToAppointments, List.map_map, Function.comp]

/-- Claim C8, witness at the sample run. -/
theorem claim_C8_witness :
    (run_main oGood false [sfo]).messages =
      flatMapL (fun loc =>
        (activeSlots (oGood.slotsResp loc.code)).map
          (fun r => compose_message ⟨loc, r.timestamp⟩)) [sfo] :=
  (claim_C8 oGood false [sfo] [] rfl rfl rfl (fun _ _ => rfl) (fun _ => rfl)).1

/-- Claim C9: the timezone property reads the fixed string key tzData from
the details dict, so it never depends on the location: any two locations
get the same result, and it is ZoneInfo applied to UTC whenever no entry of
the dict is keyed by the string tzData. -/
theorem claim_C9 (details : PyDict) (l1 l2 : Location) :
    Location.timezone details l1 = Location.timezone details l2 ∧
    (assocGet (PyVal.str "tzData") details = none →
      Location.timezone details l1 = TzResult.zone "UTC") := by
  refine ⟨rfl, fun h => ?_⟩
  simp [Location.timezone, h]

/-- Claim C9, witness: with the empty details dict the timezone is UTC. -/
theorem claim_C9_witness :
    Location.timezone [] sfo = TzResult.zone "UTC" :=
  (claim_C9 [] sfo sfo).2 rfl

/-- Claim C10: parsing NAME,CODE succeeds with the substring before the
single comma as the name and the integer value of the substring after it
as the code, and raises when the comma count is not one or the code part
is not a valid integer literal. -/
theorem claim_C10 (s : String) :
    (∀ a b : List Char, s.toList = a ++ ',' :: b → ',' ∉ a → ',' ∉ b →
      Location.parse s =
        (match pyInt (String.mk b) with
         | some k => Except.ok ⟨String.mk a, k⟩
         | none => Except.error RunError.valueError)) ∧
    (s.toList.count ',' ≠ 1 → Location.parse s = Except.error RunError.valueError) := by
  constructor
  · intro a b hsplit ha hb
    unfold Location.parse
    rw [hsplit, splitOnComma_append a b ha, splitOnComma_no_comma b hb]
    rcases hpi : pyInt (String.mk b) with _ | k <;> simp [hpi]
  · intro hcount
    have hlen : (splitOnComma s.toList).length ≠ 2 := by
      rw [splitOnComma_length]; omega
    unfold Location.parse
    rcases hsp : splitOnComma s.toList with _ | ⟨x, _ | ⟨y, _ | ⟨z, t⟩⟩⟩
    · rfl
    · rfl
    · exfalso; rw [hsp] at hlen; simp at hlen
    · rfl

/-- Claim C10, witness: the sample argument parses to the sample location. -/
theorem claim_C10_witness :
    Location.parse "SFO,5446" = Except.ok ⟨"SFO", 5446⟩ := by
  have h := (claim_C10 "SFO,5446").1 ['S', 'F', 'O'] ['5', '4', '4', '6']
    (by decide) (by decide) (by decide)
  rw [h]
  rfl

end GlobalEntryBot
